import Mathlib

/-!
Verification development for the specifier-resolution engine of
`babel-plugin-transform-named-imports`.

The definitions below are a shallow embedding of the JavaScript sources:

* `src/core.js` (the loader-era core, `findNextSpecifier` /
  `findExportedSpecifier`, lines 721-805 of the collected file);
* `src/extractExportSpecifiers.js` (the `ExportSpecifier` class and the
  extractor entry point);
* `src/sideEffects.js` and its loader-era revision (the `SideEffects`
  classifier);
* `src/specResolver.js` (`_getFutureFor` and `SpecResolver.resolve`, the
  per-path future cache);
* `src/pathResolver.js` (`decompose` / `recompose` over the request regex).

External collaborators (the Webpack module resolver, `micromatch`,
`ospath`, `find-package-json`) are modelled as explicit function
parameters, mirroring the fact that the engine treats them as opaque
services.  Strings handled character-by-character are modelled as
`List Char`.
-/

/-- Simple specifier types, the `$.default | $.namespace | $.named | $.unknown`
string constants of `src/constants.js`.  The `namespace` value is spelled
`nspace` because `namespace` is a Lean keyword. -/
inductive SpecType
  | default
  | nspace
  | named
  | unknown
deriving DecidableEq, Repr

/-- A resolved request path, as produced by the path-resolver: the original
request string together with the resolved absolute module path
(`path.original` / `path.resolved` in the sources). -/
structure ResolvedPath where
  original : String
  resolved : String
deriving DecidableEq, Repr

/-- A specifier record.  Both `ImportSpecifier`
(`src/extractImportSpecifiers.js`) and `ExportSpecifier`
(`src/extractExportSpecifiers.js`) are objects with these fields; import
specifiers simply carry no `exportedName` (reading the missing property in
JavaScript yields `undefined`, modelled as `none`). -/
structure Specifier where
  /-- The `name` field: the local identifier name. -/
  name : String
  /-- The `importedName` field (`null` when not applicable). -/
  importedName : Option String
  /-- The `exportedName` field (`null`/absent when not applicable). -/
  exportedName : Option String
  /-- The `searchName` field: the name used to continue the chain. -/
  searchName : String
  /-- The `path` field: the resolved path of the source module, `null` for
  exports of locally declared bindings. -/
  path : Option ResolvedPath
  /-- The `type` field. -/
  type : SpecType
deriving DecidableEq, Repr

/-- The import/export specifier lists of one file, the `SpecifierResult`
produced by `SpecResolver` for a successfully parsed module. -/
structure FileSpecifiers where
  importSpecifiers : List Specifier
  exportSpecifiers : List Specifier
deriving DecidableEq, Repr

/-- The environment a resolution walk runs in: the
`transformDefaultImports` option (`state.doDefaults`) and the
`specResolver.resolve` service.  `resolve` abstracts the whole
cache/parse/side-effect pipeline: it returns `none` when the file failed
to parse or was excluded by the side-effect policy (the code comments:
"if `null`, the file failed to parse or had side-effects"). -/
structure ResolveEnv where
  doDefaults : Bool
  resolve : String → Option FileSpecifiers

/-- The export search of `findNextSpecifier` (`src/core.js`):
`exportSpecifiers.find(exp => exp.exportedName === searchName)`. -/
def selectExport (fs : FileSpecifiers) (searchName : String) : Option Specifier :=
  fs.exportSpecifiers.find? (fun e => decide (e.exportedName = some searchName))

/-- The import search of `findNextSpecifier` (`src/core.js`):
`importSpecifiers.find(imp => imp.name === expPointer.name)`. -/
def findImport (fs : FileSpecifiers) (localName : String) : Option Specifier :=
  fs.importSpecifiers.find? (fun i => decide (i.name = localName))

/-- What `findNextSpecifier` does with a matched export specifier
(`src/core.js` lines 753-767): an export that is itself a re-export
(`expPointer.path` set) is the next link; otherwise the matching
local import is; otherwise there is no next link. -/
def nextFromExport (fs : FileSpecifiers) (expPointer : Specifier) : Option Specifier :=
  if expPointer.path.isSome then some expPointer
  else
    match findImport fs expPointer.name with
    | some impPointer => some impPointer
    | none => none

/-- `findNextSpecifier` of `src/core.js` (loader era, lines 721-768):
given a specifier, locates the next specifier in the import/export chain,
or `none` when the chain stops here.  Order of the guards follows the
source: namespace boundary, default boundary (when
`transformDefaultImports` is off), then the spec-resolver lookup and the
export/import search.  A specifier with no resolved `path` cannot be
followed and yields no next link. -/
def findNextSpecifier (env : ResolveEnv) (s : Specifier) : Option Specifier :=
  if s.type = SpecType.nspace then none
  else if env.doDefaults = false ∧ s.type = SpecType.default then none
  else
    match s.path with
    | none => none
    | some p =>
      match env.resolve p.resolved with
      | none => none
      | some fs =>
        match selectExport fs s.searchName with
        | none => none
        | some expPointer => nextFromExport fs expPointer

/-- The `while (nextSpecifier != null)` loop of `findExportedSpecifier`
(`src/core.js` lines 794-800), written with explicit fuel: `none` means
the fuel ran out (the JavaScript loop would still be running), `some t`
means the loop exited with terminal specifier `t`. -/
def resolveChain (env : ResolveEnv) : Nat → Specifier → Option Specifier
  | 0, _ => none
  | fuel + 1, s =>
    match findNextSpecifier env s with
    | none => some s
    | some s2 => resolveChain env fuel s2

/-- The errors relevant to the resolution entry points: the dedicated
`NullImportSpecifierError` of `src/errors.js`, the `abortSignal` sentinel
of `src/core.js`, and the generic `new Error('got a nullish
impSpecifier')` the plugin-era null check throws when debugging is
enabled. -/
inductive ResolverError
  | nullImportSpecifier
  | abortSignal
  | nullishImpSpecifier
deriving DecidableEq, Repr

/-- `findExportedSpecifier` of `src/core.js` (lines 782-805): the sanity
check `if (!impSpecifier) throw new NullImportSpecifierError();` followed
by the chain loop. -/
def findExportedSpecifier (env : ResolveEnv) (impSpecifier : Option Specifier)
    (fuel : Nat) : Except ResolverError (Option Specifier) :=
  match impSpecifier with
  | none => Except.error ResolverError.nullImportSpecifier
  | some s => Except.ok (resolveChain env fuel s)

/-- The error filter of the loader `transform` function (`src/index.js`):
`if (Object.is(error, core.abortSignal)) { return [source, sourceMap]; }
throw error;` — only `abortSignal` is swallowed (`none`); every other
error is re-thrown (`some e`). -/
def handleTransformError (e : ResolverError) : Option ResolverError :=
  if e = ResolverError.abortSignal then none else some e

/-- C2: for every specifier of kind namespace, the chain resolver stops at
once — with any positive fuel the terminal specifier is the initial
specifier itself, whatever the environment (and hence whatever the
`transformDefaultImports` or side-effect policies) says. -/
theorem c2_namespace_terminal (env : ResolveEnv) (s : Specifier) (fuel : Nat)
    (h : s.type = SpecType.nspace) :
    resolveChain env (fuel + 1) s = some s := by
  simp [resolveChain, findNextSpecifier, h]

/-- C2 witness: a concrete namespace import specifier resolves to itself. -/
theorem c2_namespace_terminal_witness :
    (Specifier.mk "m" none none "m" (some (ResolvedPath.mk "./m" "m")) SpecType.nspace).type
        = SpecType.nspace
    ∧ resolveChain (ResolveEnv.mk true (fun _ => none)) 1
        (Specifier.mk "m" none none "m" (some (ResolvedPath.mk "./m" "m")) SpecType.nspace)
      = some (Specifier.mk "m" none none "m" (some (ResolvedPath.mk "./m" "m")) SpecType.nspace) :=
  ⟨rfl, c2_namespace_terminal (ResolveEnv.mk true (fun _ => none))
    (Specifier.mk "m" none none "m" (some (ResolvedPath.mk "./m" "m")) SpecType.nspace) 0 rfl⟩

/-- C3: when `transformDefaultImports` is disabled, a specifier of kind
default is never followed: with any positive fuel the chain resolver
returns the initial specifier itself. -/
theorem c3_default_boundary (env : ResolveEnv) (s : Specifier) (fuel : Nat)
    (hdef : env.doDefaults = false) (h : s.type = SpecType.default) :
    resolveChain env (fuel + 1) s = some s := by
  simp [resolveChain, findNextSpecifier, h, hdef]

/-- C3 witness: a concrete default import under `doDefaults = false`
resolves to itself. -/
theorem c3_default_boundary_witness :
    (ResolveEnv.mk false (fun _ => none)).doDefaults = false
    ∧ (Specifier.mk "d" (some "default") none "default"
        (some (ResolvedPath.mk "./d" "d")) SpecType.default).type = SpecType.default
    ∧ resolveChain (ResolveEnv.mk false (fun _ => none)) 3
        (Specifier.mk "d" (some "default") none "default"
          (some (ResolvedPath.mk "./d" "d")) SpecType.default)
      = some (Specifier.mk "d" (some "default") none "default"
          (some (ResolvedPath.mk "./d" "d")) SpecType.default) :=
  ⟨rfl, rfl, c3_default_boundary (ResolveEnv.mk false (fun _ => none))
    (Specifier.mk "d" (some "default") none "default"
      (some (ResolvedPath.mk "./d" "d")) SpecType.default) 2 rfl rfl⟩

/-! The contrived re-export cycle of the spec: `a.js` contains
`export { x } from './b'` and `b.js` contains `export { x } from './a'`.
The two export specifiers below are exactly what the extractor produces
for those declarations (localName `x`, importedName `x` because a source
path is present, exportedName `x`, searchName `x`). -/

/-- The specifier of `export { x } from './b'` in `a.js`. -/
def cycExpA : Specifier :=
  { name := "x", importedName := some "x", exportedName := some "x",
    searchName := "x", path := some (ResolvedPath.mk "./b" "b"), type := SpecType.named }

/-- The specifier of `export { x } from './a'` in `b.js`. -/
def cycExpB : Specifier :=
  { name := "x", importedName := some "x", exportedName := some "x",
    searchName := "x", path := some (ResolvedPath.mk "./a" "a"), type := SpecType.named }

/-- File record of `a.js` in the cycle. -/
def cycFsA : FileSpecifiers := { importSpecifiers := [], exportSpecifiers := [cycExpA] }

/-- File record of `b.js` in the cycle. -/
def cycFsB : FileSpecifiers := { importSpecifiers := [], exportSpecifiers := [cycExpB] }

/-- The resolution environment of the cyclic two-file project. -/
def cycEnv : ResolveEnv :=
  { doDefaults := false,
    resolve := fun p =>
      if p = "a" then some cycFsA
      else if p = "b" then some cycFsB
      else none }

/-- The starting import specifier `import { x } from './a'`. -/
def cycStart : Specifier :=
  { name := "x", importedName := some "x", exportedName := none,
    searchName := "x", path := some (ResolvedPath.mk "./a" "a"), type := SpecType.named }

/-- In the cyclic environment the two re-export specifiers step to each
other forever, so no amount of fuel lets the chain loop exit. -/
theorem cyc_loop (n : Nat) :
    resolveChain cycEnv n cycExpA = none ∧ resolveChain cycEnv n cycExpB = none := by
  induction n with
  | zero => exact ⟨rfl, rfl⟩
  | succ n ih =>
    have ha : findNextSpecifier cycEnv cycExpA = some cycExpB := by decide
    have hb : findNextSpecifier cycEnv cycExpB = some cycExpA := by decide
    exact ⟨by simp [resolveChain, ha, ih.2], by simp [resolveChain, hb, ih.1]⟩

/-- C1 counterexample: on the contrived cycle `a.js: export { x } from
'./b'` / `b.js: export { x } from './a'`, resolving `import { x } from
'./a'` never reaches a terminal state: the `while` loop of
`findExportedSpecifier` steps between the two re-export specifiers
forever (the engine has no visited-set or iteration cap). -/
theorem c1_counterexample : ¬ ∃ n t, resolveChain cycEnv n cycStart = some t := by
  rintro ⟨n, t, h⟩
  cases n with
  | zero => exact Option.noConfusion h
  | succ n =>
    have hs : findNextSpecifier cycEnv cycStart = some cycExpA := by decide
    rw [show resolveChain cycEnv (n + 1) cycStart
        = resolveChain cycEnv n cycExpA by simp [resolveChain, hs],
      (cyc_loop n).1] at h
    exact Option.noConfusion h

/-- C1 amended: the chain resolver is not guarded against re-export
cycles.  On the cyclic two-file graph, the resolution of `x` does not
terminate: for every fuel bound the loop is still running (`none`), so
the unbounded JavaScript loop would run forever instead of reaching a
no-matching-export or cycle-detected terminal. -/
theorem c1_cycle_no_termination (fuel : Nat) :
    resolveChain cycEnv fuel cycStart = none := by
  cases fuel with
  | zero => rfl
  | succ n =>
    have hs : findNextSpecifier cycEnv cycStart = some cycExpA := by decide
    rw [show resolveChain cycEnv (n + 1) cycStart
        = resolveChain cycEnv n cycExpA by simp [resolveChain, hs]]
    exact (cyc_loop n).1

/-- If position `i` of a list satisfies the predicate and every earlier
position does not, `List.find?` returns exactly the element at `i`. -/
theorem find?_eq_of_first {α : Type} (p : α → Bool) :
    ∀ (l : List α) (i : Nat) (ei : α), l[i]? = some ei → p ei = true →
      (∀ k ek, k < i → l[k]? = some ek → p ek = false) →
      l.find? p = some ei := by
  intro l
  induction l with
  | nil => intro i ei hi _ _; simp at hi
  | cons a l ih =>
    intro i ei hi hp hfirst
    cases i with
    | zero =>
      rw [List.getElem?_cons_zero] at hi
      cases hi
      exact List.find?_cons_of_pos _ hp
    | succ i =>
      have ha : p a = false := hfirst 0 a (Nat.succ_pos i) List.getElem?_cons_zero
      rw [List.find?_cons_of_neg _ (by simp [ha])]
      exact ih i ei (by simpa using hi) hp
        (fun k ek hk hget => hfirst (k + 1) ek (by omega) (by simpa using hget))

/-- C4: in a file whose export-specifier list has two or more entries with
the same exported name, one resolution step selects the first matching
entry in declaration order — `exportSpecifiers.find(...)` returns the
element at the least matching index `i`, and the step continues from that
entry (later duplicates are never selected). -/
theorem c4_first_match (env : ResolveEnv) (s : Specifier) (p : ResolvedPath)
    (fs : FileSpecifiers) (i j : Nat) (ei ej : Specifier)
    (hguard1 : s.type ≠ SpecType.nspace)
    (hguard2 : ¬(env.doDefaults = false ∧ s.type = SpecType.default))
    (hpath : s.path = some p)
    (hres : env.resolve p.resolved = some fs)
    (hij : i < j)
    (hi : fs.exportSpecifiers[i]? = some ei)
    (hj : fs.exportSpecifiers[j]? = some ej)
    (hdup : ei.exportedName = ej.exportedName)
    (hmi : ei.exportedName = some s.searchName)
    (hfirst : ∀ k ek, k < i → fs.exportSpecifiers[k]? = some ek →
      ek.exportedName ≠ some s.searchName) :
    selectExport fs s.searchName = some ei
    ∧ findNextSpecifier env s = nextFromExport fs ei := by
  have hsel : selectExport fs s.searchName = some ei := by
    apply find?_eq_of_first _ _ i ei hi (by simp [hmi])
    intro k ek hk hget
    simpa using hfirst k ek hk hget
  refine ⟨hsel, ?_⟩
  simp [findNextSpecifier, hguard1, hguard2, hpath, hres, hsel]

/-- First export specifier of the duplicate-name file: `export { x } from
'./m0'`. -/
def c4e0 : Specifier :=
  { name := "x", importedName := some "x", exportedName := some "x",
    searchName := "x", path := some (ResolvedPath.mk "./m0" "m0"), type := SpecType.named }

/-- Second export specifier of the duplicate-name file, a later duplicate
also exported under the name `x`. -/
def c4e1 : Specifier :=
  { name := "y", importedName := some "y", exportedName := some "x",
    searchName := "y", path := some (ResolvedPath.mk "./m1" "m1"), type := SpecType.named }

/-- The duplicate-name file record. -/
def c4fs : FileSpecifiers := { importSpecifiers := [], exportSpecifiers := [c4e0, c4e1] }

/-- Environment exposing the duplicate-name file as `f`. -/
def c4env : ResolveEnv :=
  { doDefaults := false, resolve := fun p => if p = "f" then some c4fs else none }

/-- The starting specifier `import { x } from './f'`. -/
def c4s : Specifier :=
  { name := "x", importedName := some "x", exportedName := none,
    searchName := "x", path := some (ResolvedPath.mk "./f" "f"), type := SpecType.named }

/-- C4 witness: in the concrete duplicate-name file, the resolution step
picks the first export specifier, never the later duplicate. -/
theorem c4_first_match_witness :
    c4fs.exportSpecifiers[0]? = some c4e0
    ∧ c4fs.exportSpecifiers[1]? = some c4e1
    ∧ c4e0.exportedName = c4e1.exportedName
    ∧ (selectExport c4fs c4s.searchName = some c4e0
        ∧ findNextSpecifier c4env c4s = nextFromExport c4fs c4e0) :=
  ⟨by decide, by decide, by decide,
    c4_first_match c4env c4s (ResolvedPath.mk "./f" "f") c4fs 0 1 c4e0 c4e1
      (by decide) (by decide) rfl (by decide) (by decide) (by decide) (by decide)
      (by decide) (by decide)
      (fun k ek hk _ => absurd hk (Nat.not_lt_zero k))⟩

/-- C5 amended: when the matching export specifier has no `path` and
no import specifier of the file shares its local name (a locally declared
binding such as `const x = 1; export { x }`), `findNextSpecifier` returns
no next specifier, so the chain resolver stops with the current
specifier — the one that referenced the file — as the terminal, not the
export specifier. -/
theorem c5_local_declaration_stop (env : ResolveEnv) (s : Specifier)
    (p : ResolvedPath) (fs : FileSpecifiers) (e : Specifier) (fuel : Nat)
    (hguard1 : s.type ≠ SpecType.nspace)
    (hguard2 : ¬(env.doDefaults = false ∧ s.type = SpecType.default))
    (hpath : s.path = some p)
    (hres : env.resolve p.resolved = some fs)
    (hsel : selectExport fs s.searchName = some e)
    (hep : e.path = none)
    (himp : findImport fs e.name = none) :
    findNextSpecifier env s = none ∧ resolveChain env (fuel + 1) s = some s := by
  have hnext : findNextSpecifier env s = none := by
    simp [findNextSpecifier, hguard1, hguard2, hpath, hres, hsel,
      nextFromExport, hep, himp]
  exact ⟨hnext, by simp [resolveChain, hnext]⟩

/-- The export specifier of `const x = 1; export { x }` in `b.js`:
no `path`, exported name `x`. -/
def c5exp : Specifier :=
  { name := "x", importedName := none, exportedName := some "x",
    searchName := "x", path := none, type := SpecType.named }

/-- File record of `b.js`, which declares `x` locally and has no imports. -/
def c5fs : FileSpecifiers := { importSpecifiers := [], exportSpecifiers := [c5exp] }

/-- Environment exposing `b.js` as `b`. -/
def c5env : ResolveEnv :=
  { doDefaults := false, resolve := fun p => if p = "b" then some c5fs else none }

/-- The starting specifier `import { x } from './b'`. -/
def c5s : Specifier :=
  { name := "x", importedName := some "x", exportedName := none,
    searchName := "x", path := some (ResolvedPath.mk "./b" "b"), type := SpecType.named }

/-- C5 counterexample: for `import { x } from './b'` against `b.js` with
`const x = 1; export { x }`, the matching export has no `path` and no
matching import exists, yet the terminal of the chain is the
original import specifier, which differs from the export specifier — the claim
that the terminal is the export specifier itself fails here. -/
theorem c5_counterexample :
    selectExport c5fs c5s.searchName = some c5exp
    ∧ c5exp.path = none
    ∧ findImport c5fs c5exp.name = none
    ∧ resolveChain c5env 2 c5s = some c5s
    ∧ c5s ≠ c5exp := by decide

/-- C5 witness: the amended statement evaluated on the concrete local
declaration example. -/
theorem c5_local_declaration_stop_witness :
    selectExport c5fs c5s.searchName = some c5exp
    ∧ (findNextSpecifier c5env c5s = none ∧ resolveChain c5env 1 c5s = some c5s) :=
  ⟨by decide,
    c5_local_declaration_stop c5env c5s (ResolvedPath.mk "./b" "b") c5fs c5exp 0
      (by decide) (by decide) rfl (by decide) (by decide) (by decide) (by decide)⟩

/-! Embedding of `src/extractExportSpecifiers.js`: the AST node shapes the
extractor distinguishes, the `ExportSpecifier` constructor, and the
extractor entry point. -/

/-- The `declaration` of an `ExportDefaultDeclaration` node, as far as the
extractor inspects it: either a bare identifier reference or any other
expression shape (`types.isIdentifier(node.declaration)` is the only test
performed). -/
inductive DeclExpr
  | ident (name : String)
  | nonIdent
deriving DecidableEq, Repr

/-- An `ExportDefaultDeclaration` AST node (`export default <declaration>`). -/
structure ExportDefaultNode where
  declaration : DeclExpr
deriving DecidableEq, Repr

/-- The export specifier node shapes recognized by `getSimpleType`:
`ExportSpecifier` (with `local` and `exported` identifiers),
`ExportDefaultSpecifier` and `ExportNamespaceSpecifier` (with `exported`
only), and anything else (`unknown`). -/
inductive ExportSpecifierNode
  | exportSpecifier (localName exportedName : String)
  | exportDefaultSpecifier (exportedName : String)
  | exportNamespaceSpecifier (exportedName : String)
  | unknownSpecifier
deriving DecidableEq, Repr

/-- An `ExportNamedDeclaration` AST node: its specifier list and optional
`source` string (`export { ... }` versus `export { ... } from 'mod'`). -/
structure ExportNamedNode where
  specifiers : List ExportSpecifierNode
  source : Option String
deriving DecidableEq, Repr

/-- A top-level export declaration, the two shapes `SpecResolver` routes to
the extractor (`isExportDefaultDeclaration` or `isExportNamedDeclaration`). -/
inductive ExportNode
  | defaultDecl (node : ExportDefaultNode)
  | namedDecl (node : ExportNamedNode)
deriving DecidableEq, Repr

/-- `getSimpleType` of `src/extractExportSpecifiers.js`: a specifier whose
`local` identifier is literally named `default` is a default export, then
the node kind decides. -/
def getSimpleType : ExportSpecifierNode → SpecType
  | ExportSpecifierNode.exportSpecifier localName _ =>
    if localName = "default" then SpecType.default else SpecType.named
  | ExportSpecifierNode.exportDefaultSpecifier _ => SpecType.default
  | ExportSpecifierNode.exportNamespaceSpecifier _ => SpecType.nspace
  | ExportSpecifierNode.unknownSpecifier => SpecType.unknown

/-- The `ExportSpecifier` class constructor: stores the names, derives
`searchName = importedName || localName`. -/
def mkExportSpecifier (localName : String) (importedName : Option String)
    (exportedName : Option String) (path : Option ResolvedPath)
    (type : SpecType) : Specifier :=
  { name := localName
    importedName := importedName
    exportedName := exportedName
    searchName := importedName.getD localName
    path := path
    type := type }

/-- `ExportSpecifier.fromDefaultExport`: only an `export default` whose
declaration is a bare identifier yields a specifier
(`new ExportSpecifier(localName, null, 'default', null, 'default')`);
every other declaration shape yields `null`. -/
def fromDefaultExport (node : ExportDefaultNode) : Option Specifier :=
  match node.declaration with
  | DeclExpr.ident localName =>
    some (mkExportSpecifier localName none (some "default") none SpecType.default)
  | DeclExpr.nonIdent => none

/-- The `local`-or-`exported` name used by `fromSpecifier`:
`(specifier.local || specifier.exported).name`. -/
def specLocalName : ExportSpecifierNode → String
  | ExportSpecifierNode.exportSpecifier localName _ => localName
  | ExportSpecifierNode.exportDefaultSpecifier exportedName => exportedName
  | ExportSpecifierNode.exportNamespaceSpecifier exportedName => exportedName
  | ExportSpecifierNode.unknownSpecifier => ""

/-- The `exported` name of a specifier node, when the node carries one. -/
def specExportedName : ExportSpecifierNode → Option String
  | ExportSpecifierNode.exportSpecifier _ exportedName => some exportedName
  | ExportSpecifierNode.exportDefaultSpecifier exportedName => some exportedName
  | ExportSpecifierNode.exportNamespaceSpecifier exportedName => some exportedName
  | ExportSpecifierNode.unknownSpecifier => none

/-- `ExportSpecifier.fromSpecifier`: `null` for unknown node kinds,
otherwise an `ExportSpecifier` whose `importedName` is set only for the
re-export (`from`) form. -/
def fromSpecifier (specifier : ExportSpecifierNode) (path : Option ResolvedPath) :
    Option Specifier :=
  let type := getSimpleType specifier
  if type = SpecType.unknown then none
  else
    let localName := specLocalName specifier
    let importedName : Option String :=
      match path with
      | none => none
      | some _ => if type = SpecType.default then some "default" else some localName
    let exportedName : Option String :=
      match specExportedName specifier with
      | some n => some n
      | none => if type = SpecType.default then some "default" else some localName
    some (mkExportSpecifier localName importedName exportedName path type)

/-- `handleOtherExport`: resolve the `from` source once (if present) and
map every specifier node through `fromSpecifier`. -/
def handleOtherExport (node : ExportNamedNode) (resolve : String → Option ResolvedPath) :
    List (Option Specifier) :=
  let resolvedPath := node.source.bind resolve
  node.specifiers.map (fun specifier => fromSpecifier specifier resolvedPath)

/-- The per-declaration branch of the extractor entry point
(`module.exports` of `src/extractExportSpecifiers.js`): a default export
contributes its single (possibly `null`) specifier, a named export its
mapped list. -/
def exportSpecsOfDecl (resolve : String → Option ResolvedPath) :
    ExportNode → List (Option Specifier)
  | ExportNode.defaultDecl node => [fromDefaultExport node]
  | ExportNode.namedDecl node => handleOtherExport node resolve

/-- The extractor entry point: concatenate all per-declaration results and
`filter(Boolean)` the `null` entries away. -/
def extractExportSpecifiers (declarations : List ExportNode)
    (resolve : String → Option ResolvedPath) : List Specifier :=
  ((declarations.map (exportSpecsOfDecl resolve)).join).filterMap id

/-- C6 counterexample: for `export default () => {}` (a non-identifier
declaration) the extractor emits nothing at all — the result list is
empty, so in particular it contains no terminal (path-less) export
specifier for the declaration. -/
theorem c6_counterexample :
    extractExportSpecifiers [ExportNode.defaultDecl (ExportDefaultNode.mk DeclExpr.nonIdent)]
        (fun _ => none) = []
    ∧ ¬ ∃ e, e ∈ extractExportSpecifiers
        [ExportNode.defaultDecl (ExportDefaultNode.mk DeclExpr.nonIdent)]
        (fun _ => none) ∧ e.path = none := by
  constructor
  · rfl
  · rintro ⟨e, he, -⟩
    simp [extractExportSpecifiers, exportSpecsOfDecl, fromDefaultExport] at he

/-- C6 amended: an `export default` whose declaration is not a bare
identifier yields no export specifier at all: `fromDefaultExport` returns
`null`, which `filter(Boolean)` removes, so the declaration contributes
nothing to the extraction result (the resolver then stops at that file
through the no-matching-export case instead of a dedicated terminal
specifier). -/
theorem c6_non_identifier_default_elided (pre post : List ExportNode)
    (resolve : String → Option ResolvedPath) :
    fromDefaultExport (ExportDefaultNode.mk DeclExpr.nonIdent) = none
    ∧ extractExportSpecifiers
        (pre ++ ExportNode.defaultDecl (ExportDefaultNode.mk DeclExpr.nonIdent) :: post)
        resolve
      = extractExportSpecifiers (pre ++ post) resolve := by
  refine ⟨rfl, ?_⟩
  simp [extractExportSpecifiers, exportSpecsOfDecl, fromDefaultExport]

/-! Embedding of the side-effect classifier: the loader-era `SideEffects`
of `src/sideEffects.js` (revision with `test(modulePath, hasSideEffects)`)
and the plugin-era `SideEffects.test(filePath)` that consults the package
manifest.  `micromatch.isMatch`, `ospath.relative`, `ospath.dirname` and
`find-package-json` are external collaborators, passed as parameters. -/

/-- The `sideEffects` manifest flag value:
`boolean | string | string[] | undefined`. -/
inductive FlagValue
  | undef
  | boolVal (b : Bool)
  | strVal (s : String)
  | arrVal (globs : List String)
deriving DecidableEq, Repr

/-- The `PackageData` record: the directory of the owning `package.json`
and its `sideEffects` value. -/
structure PackageData where
  dir : String
  flagValue : FlagValue
deriving DecidableEq, Repr

/-- `appendCurPath` / `fixPath` of `src/utils.js` and `src/sideEffects.js`:
prepend `./` unless the path already starts with a dot. -/
def fixPath (path : String) : String :=
  if path.startsWith "." then path else "./" ++ path

/-- State of the loader-era `SideEffects` instance: `didInit`, `enabled`,
the root context and the two ignore lists produced by `init`. -/
structure SideEffectsState where
  didInit : Bool
  enabled : Bool
  rootContext : String
  ignoredModules : List String
  ignoredPatterns : List String
deriving DecidableEq, Repr

/-- `SideEffects.isIgnored` (loader era): an exact ignored-module hit, or a
micromatch hit of the project-relative path against the ignored
patterns.  `mm` is the external `micromatch.isMatch` (with
`matchBase: true`) and `rel` the external `ospath.relative`. -/
def isIgnored (mm : String → List String → Bool) (rel : String → String → String)
    (se : SideEffectsState) (modulePath : String) : Bool :=
  se.ignoredModules.contains modulePath
    || mm (fixPath (rel se.rootContext modulePath)) se.ignoredPatterns

/-- `SideEffects.test` (loader era): after `assertInit` (which throws when
the instance is enabled but not initialized), report `false` when
disabled or ignored, otherwise pass through the flag Webpack reported. -/
def sideEffectsTest (mm : String → List String → Bool) (rel : String → String → String)
    (se : SideEffectsState) (modulePath : String) (hasSideEffects : Bool) :
    Except String Bool :=
  if se.didInit = false ∧ se.enabled = true then
    Except.error "the SideEffect instance was not initialized completely"
  else Except.ok (
    if se.enabled = false then false
    else if isIgnored mm rel se modulePath then false
    else hasSideEffects)

/-- State of the plugin-era `SideEffects` instance (`src/sideEffects.js`,
class fields set by the constructor): `enabled`, the `default` assumption,
the project path and the split ignore lists. -/
structure SideEffectsV1State where
  enabled : Bool
  defaultFlag : Bool
  projectPath : String
  ignoredModules : List String
  ignoredPatterns : List String
deriving DecidableEq, Repr

/-- Plugin-era `SideEffects.isIgnored`. -/
def isIgnoredV1 (mm : String → List String → Bool) (rel : String → String → String)
    (se : SideEffectsV1State) (filePath : String) : Bool :=
  se.ignoredModules.contains filePath
    || mm (fixPath (rel se.projectPath filePath)) se.ignoredPatterns

/-- `hasSideEffectsImpl` of `src/sideEffects.js` (adapted from Webpack):
`undefined` falls back to the default, a boolean is taken as-is, a string
is a glob matched against the module path, an array reports whether some
glob matches (each array element is itself a string glob, so the
recursive call reduces to the string case, inlined here). -/
def hasSideEffectsImpl (mm : String → List String → Bool) (modulePath : String) :
    FlagValue → Bool → Bool
  | FlagValue.undef, defaultValue => defaultValue
  | FlagValue.boolVal b, _ => b
  | FlagValue.strVal s, _ => mm modulePath [s]
  | FlagValue.arrVal globs, _ => globs.any (fun glob => mm modulePath [glob])

/-- Plugin-era `SideEffects.hasSideEffects`: no package data means the
default assumption, otherwise evaluate the manifest flag against the
package-relative module path. -/
def sideEffectsHasV1 (mm : String → List String → Bool) (rel : String → String → String)
    (se : SideEffectsV1State) (filePath : String) (packageData : Option PackageData) :
    Bool :=
  match packageData with
  | none => se.defaultFlag
  | some pd => hasSideEffectsImpl mm (fixPath (rel pd.dir filePath)) pd.flagValue se.defaultFlag

/-- Plugin-era `SideEffects.test`: `false` when disabled, for an empty
(falsy) path, or for an ignored path; otherwise consult the per-directory
package-data cache (an association list, returned updated) and the
package manifest via the external `find-package-json` (`getPackageData`). -/
def sideEffectsTestV1 (mm : String → List String → Bool) (rel : String → String → String)
    (dirname : String → String) (getPackageData : String → Option PackageData)
    (se : SideEffectsV1State) (cache : List (String × Option PackageData))
    (filePath : String) : Bool × List (String × Option PackageData) :=
  if se.enabled = false ∨ filePath = "" ∨ isIgnoredV1 mm rel se filePath then
    (false, cache)
  else
    let cacheKey := dirname filePath
    match cache.lookup cacheKey with
    | some cachedResult => (sideEffectsHasV1 mm rel se filePath cachedResult, cache)
    | none =>
      let packageData := getPackageData filePath
      (sideEffectsHasV1 mm rel se filePath packageData, (cacheKey, packageData) :: cache)

/-- C7: a file path that hits the ignore list (exact ignored module or
pattern match) is classified as side-effect free no matter what: the
loader-era `test` returns `false` for every reported flag, and the
plugin-era `test` returns `false` for every package manifest content and
cache state. -/
theorem c7_ignored_is_pure (mm : String → List String → Bool)
    (rel : String → String → String) (se : SideEffectsState)
    (seV1 : SideEffectsV1State) (path : String)
    (hinit : se.didInit = true)
    (hig : isIgnored mm rel se path = true)
    (higV1 : isIgnoredV1 mm rel seV1 path = true) :
    (∀ reportedFlag, sideEffectsTest mm rel se path reportedFlag = Except.ok false)
    ∧ (∀ dirname getPackageData cache,
        (sideEffectsTestV1 mm rel dirname getPackageData seV1 cache path).1 = false) := by
  constructor
  · intro reportedFlag
    simp [sideEffectsTest, hinit, hig]
  · intro dirname getPackageData cache
    simp [sideEffectsTestV1, higV1]

/-- C7 witness: a concrete ignored path is reported side-effect free even
though Webpack reports side-effects and the manifest declares them. -/
theorem c7_ignored_is_pure_witness :
    isIgnored (fun _ _ => false) (fun _ p => p)
        (SideEffectsState.mk true true "/proj" ["/proj/a.js"] []) "/proj/a.js" = true
    ∧ sideEffectsTest (fun _ _ => false) (fun _ p => p)
        (SideEffectsState.mk true true "/proj" ["/proj/a.js"] []) "/proj/a.js" true
      = Except.ok false
    ∧ (sideEffectsTestV1 (fun _ _ => false) (fun _ p => p) (fun p => p)
        (fun _ => some (PackageData.mk "/proj" (FlagValue.boolVal true)))
        (SideEffectsV1State.mk true true "/proj" ["/proj/a.js"] []) [] "/proj/a.js").1
      = false := by
  refine ⟨by decide, ?_, ?_⟩
  · exact (c7_ignored_is_pure (fun _ _ => false) (fun _ p => p)
      (SideEffectsState.mk true true "/proj" ["/proj/a.js"] [])
      (SideEffectsV1State.mk true true "/proj" ["/proj/a.js"] []) "/proj/a.js"
      rfl (by decide) (by decide)).1 true
  · exact (c7_ignored_is_pure (fun _ _ => false) (fun _ p => p)
      (SideEffectsState.mk true true "/proj" ["/proj/a.js"] [])
      (SideEffectsV1State.mk true true "/proj" ["/proj/a.js"] []) "/proj/a.js"
      rfl (by decide) (by decide)).2 (fun p => p)
      (fun _ => some (PackageData.mk "/proj" (FlagValue.boolVal true))) []

/-! Embedding of the File Specifier Cache (`src/specResolver.js`).
`_getFutureFor` keeps a `Map` from module path to the `Future` wrapping
the filter/parse/extract pipeline; a future is created (and the pipeline
attached) only on a cache miss.  Futures are identified by the order of
their creation (a fresh number), which is all the cache logic observes. -/

/-- The spec-resolver cache: the `specCache` map (an association list from
module path to future identity) plus the supply of fresh future
identities. -/
structure SpecCache where
  entries : List (String × Nat)
  nextId : Nat
deriving DecidableEq, Repr

/-- The cache at the start of a resolution session. -/
def emptySpecCache : SpecCache := { entries := [], nextId := 0 }

/-- The result `_getFutureFor` hands back: whether a new future (with its
pipeline) was created, and which future serves the request. -/
structure FutureResult where
  isNew : Bool
  future : Nat
deriving DecidableEq, Repr

/-- `_getFutureFor` of `src/specResolver.js` (lines 196-217): look the
path up in `specCache`; on a hit return the stored future unchanged
(`isNew = false`), on a miss build a new future around the extraction
pipeline, store it, and return it with `isNew = true`. -/
def getFutureFor (cache : SpecCache) (modulePath : String) : FutureResult × SpecCache :=
  match cache.entries.lookup modulePath with
  | some future => ({ isNew := false, future := future }, cache)
  | none =>
    ({ isNew := true, future := cache.nextId },
      { entries := (modulePath, cache.nextId) :: cache.entries, nextId := cache.nextId + 1 })

/-- A sequence of `SpecResolver.resolve` requests played against the
cache, in order; each produces the `(path, result)` pair the requester
observes. -/
def processRequests (cache : SpecCache) : List String → List (String × FutureResult) × SpecCache
  | [] => ([], cache)
  | p :: ps =>
    let step := getFutureFor cache p
    let rest := processRequests step.2 ps
    ((p, step.1) :: rest.1, rest.2)


/-- On a cache hit, `getFutureFor` returns the stored future and leaves
the cache untouched. -/
theorem getFutureFor_hit (cache : SpecCache) (q : String) (g : Nat)
    (hq : cache.entries.lookup q = some g) :
    getFutureFor cache q = ({ isNew := false, future := g }, cache) := by
  unfold getFutureFor
  rw [hq]

/-- On a cache miss, `getFutureFor` creates a fresh future and the updated
cache now stores it under the requested path. -/
theorem getFutureFor_miss (cache : SpecCache) (q : String)
    (hq : cache.entries.lookup q = none) :
    (getFutureFor cache q).1 = { isNew := true, future := cache.nextId }
    ∧ ((getFutureFor cache q).2).entries.lookup q = some cache.nextId := by
  unfold getFutureFor
  rw [hq]
  exact ⟨rfl, by simp [List.lookup]⟩

/-- A `getFutureFor` call never disturbs an existing cache entry. -/
theorem getFutureFor_preserves (cache : SpecCache) (q p : String) (f : Nat)
    (hf : cache.entries.lookup p = some f) :
    ((getFutureFor cache q).2).entries.lookup p = some f := by
  unfold getFutureFor
  cases hq : cache.entries.lookup q with
  | some g => simpa using hf
  | none =>
    have hne : p ≠ q := fun h => by rw [h, hq] at hf; exact Option.noConfusion hf
    have hb : (p == q) = false := beq_eq_false_iff_ne.2 hne
    simpa [List.lookup, hb] using hf

/-- Processing any request sequence preserves an existing cache entry. -/
theorem processRequests_preserves (ps : List String) :
    ∀ (cache : SpecCache) (p : String) (f : Nat),
      cache.entries.lookup p = some f →
      ((processRequests cache ps).2).entries.lookup p = some f := by
  induction ps with
  | nil => intro cache p f hf; exact hf
  | cons q ps ih =>
    intro cache p f hf
    exact ih _ p f (getFutureFor_preserves cache q p f hf)

/-- While an entry for `p` is stored, every request for `p` is answered
with that same future and without creating a pipeline. -/
theorem processRequests_stable (ps : List String) :
    ∀ (cache : SpecCache) (p : String) (f : Nat),
      cache.entries.lookup p = some f →
      ∀ r ∈ (processRequests cache ps).1, r.1 = p →
        r.2 = { isNew := false, future := f } := by
  induction ps with
  | nil => intro cache p f _ r hr; exact absurd hr (List.not_mem_nil r)
  | cons q ps ih =>
    intro cache p f hf r hr hrp
    simp only [processRequests] at hr
    rcases List.mem_cons.1 hr with h | h
    · subst h
      simp only at hrp
      have hfq : cache.entries.lookup q = some f := by rw [hrp]; exact hf
      rw [getFutureFor_hit cache q f hfq]
    · exact ih _ p f (getFutureFor_preserves cache q p f hf) r h hrp

/-- While an entry for `p` is stored, no request for `p` ever creates a
new pipeline. -/
theorem processRequests_no_new (ps : List String) (cache : SpecCache) (p : String)
    (f : Nat) (hf : cache.entries.lookup p = some f) :
    ((processRequests cache ps).1.filter (fun r => r.2.isNew && r.1 == p)) = [] := by
  apply List.filter_eq_nil.2
  intro r hr
  by_cases hrp : r.1 = p
  · have hstab := processRequests_stable ps cache p f hf r hr hrp
    simp [hstab]
  · simp [hrp]

/-- In any request sequence, a pipeline for path `p` is created at most
once: the creation immediately stores the entry, and stored entries are
answered from the cache. -/
theorem processRequests_at_most_once (ps : List String) :
    ∀ (cache : SpecCache) (p : String),
      ((processRequests cache ps).1.filter
        (fun r => r.2.isNew && r.1 == p)).length ≤ 1 := by
  induction ps with
  | nil => intro cache p; simp [processRequests]
  | cons q ps ih =>
    intro cache p
    simp only [processRequests, List.filter_cons]
    cases hq : cache.entries.lookup q with
    | some g =>
      rw [getFutureFor_hit cache q g hq]
      exact le_trans (le_of_eq (by simp)) (ih cache p)
    | none =>
      obtain ⟨hres, hstore⟩ := getFutureFor_miss cache q hq
      rw [hres]
      by_cases hpq : q = p
      · subst hpq
        have hempty := processRequests_no_new ps (getFutureFor cache q).2 q
          cache.nextId hstore
        simp [hempty]
      · have hb : (q == p) = false := beq_eq_false_iff_ne.2 hpq
        simp only [hb, Bool.and_false, if_false]
        exact ih _ p

/-- C8: once a record for path `p` is stored (after the `pre` requests),
the cache entry is never mutated by further requests, every later request
for `p` is served the same stored future without recomputation
(`isNew = false`), and in each request segment the extraction pipeline
for `p` is created at most once. -/
theorem c8_cache_at_most_once (pre post : List String) (p : String) (f : Nat)
    (hf : ((processRequests emptySpecCache pre).2).entries.lookup p = some f) :
    ((processRequests (processRequests emptySpecCache pre).2 post).2).entries.lookup p
        = some f
    ∧ (∀ r ∈ (processRequests (processRequests emptySpecCache pre).2 post).1,
        r.1 = p → r.2 = { isNew := false, future := f })
    ∧ ((processRequests (processRequests emptySpecCache pre).2 post).1.filter
        (fun r => r.2.isNew && r.1 == p)).length = 0
    ∧ ((processRequests emptySpecCache pre).1.filter
        (fun r => r.2.isNew && r.1 == p)).length ≤ 1 :=
  ⟨processRequests_preserves post _ p f hf,
   processRequests_stable post _ p f hf,
   by rw [processRequests_no_new post _ p f hf]; rfl,
   processRequests_at_most_once pre _ p⟩

/-- C8 witness: a concrete session — `a` is requested, then `a`, `b`, `a`
again; the record for `a` persists as future `0`, the later requests all
receive future `0` with no recomputation, and no second pipeline is ever
created for `a`. -/
theorem c8_cache_at_most_once_witness :
    ((processRequests emptySpecCache ["a"]).2).entries.lookup "a" = some 0
    ∧ (((processRequests (processRequests emptySpecCache ["a"]).2
            ["a", "b", "a"]).2).entries.lookup "a" = some 0
      ∧ (∀ r ∈ (processRequests (processRequests emptySpecCache ["a"]).2
            ["a", "b", "a"]).1,
          r.1 = "a" → r.2 = { isNew := false, future := 0 })
      ∧ ((processRequests (processRequests emptySpecCache ["a"]).2
            ["a", "b", "a"]).1.filter
          (fun r => r.2.isNew && r.1 == "a")).length = 0
      ∧ ((processRequests emptySpecCache ["a"]).1.filter
          (fun r => r.2.isNew && r.1 == "a")).length ≤ 1) :=
  ⟨by decide, c8_cache_at_most_once ["a"] ["a", "b", "a"] "a" 0 (by decide)⟩

/-! Embedding of the plugin-era chain resolver entry `toExportedSpecifier`
(`src/core.js` lines 94-121).  Its `findNextSpecifier` (lines 26-72) has
no namespace guard: only the default boundary, the spec-resolver lookup
and the export/import search.  Its null-input check is configuration
dependent: `if (debug.enabled) throw new Error('got a nullish
impSpecifier'); throw abortSignal;` with the comment "abort silently in
production". -/

/-- Plugin-era `findNextSpecifier` (`src/core.js` lines 26-72): default
boundary, spec-resolver lookup, export search, re-export-path shortcut,
local-import lookup, fall-through to `null`.  Unlike the loader-era
revision there is no namespace guard. -/
def findNextSpecifierV1 (env : ResolveEnv) (s : Specifier) : Option Specifier :=
  if env.doDefaults = false ∧ s.type = SpecType.default then none
  else
    match s.path with
    | none => none
    | some p =>
      match env.resolve p.resolved with
      | none => none
      | some fs =>
        match selectExport fs s.searchName with
        | none => none
        | some expPointer => nextFromExport fs expPointer

/-- The `while (nextSpecifier != null)` loop of the plugin-era
`toExportedSpecifier` (`src/core.js` lines 108-118), with explicit fuel
as in `resolveChain`. -/
def resolveChainV1 (env : ResolveEnv) : Nat → Specifier → Option Specifier
  | 0, _ => none
  | fuel + 1, s =>
    match findNextSpecifierV1 env s with
    | none => some s
    | some s2 => resolveChainV1 env fuel s2

/-- Plugin-era `toExportedSpecifier` (`src/core.js` lines 94-121): on a
nullish input specifier it throws a generic `Error` when `debug.enabled`,
and the `abortSignal` sentinel otherwise ("abort silently in
production"); on a proper specifier it runs the chain loop. -/
def toExportedSpecifierV1 (debugEnabled : Bool) (env : ResolveEnv)
    (impSpecifier : Option Specifier) (fuel : Nat) :
    Except ResolverError (Option Specifier) :=
  match impSpecifier with
  | none =>
    if debugEnabled then Except.error ResolverError.nullishImpSpecifier
    else Except.error ResolverError.abortSignal
  | some s => Except.ok (resolveChainV1 env fuel s)

/-- C9 counterexample: in the plugin-era chain resolver with debugging
disabled (the non-debug/production configuration), a null starting
specifier raises the `abortSignal` sentinel — and the transform error
filter swallows exactly that sentinel, so in this configuration the
error is not surfaced: the claim that the error is never swallowed in
every configuration fails here. -/
theorem c9_counterexample :
    toExportedSpecifierV1 false (ResolveEnv.mk false (fun _ => none)) none 1
        = Except.error ResolverError.abortSignal
    ∧ handleTransformError ResolverError.abortSignal = none :=
  ⟨rfl, rfl⟩

/-- C9 amended: a null starting specifier always raises an error, but how
it is surfaced depends on the era and the configuration.  The loader-era
`findExportedSpecifier` throws `NullImportSpecifierError` for every
environment and the transform filter re-throws it (never swallowed).
The plugin-era `toExportedSpecifier` surfaces a generic error only when
debugging is enabled; in non-debug/production mode it throws the
`abortSignal` sentinel, which the transform pipeline swallows (a silent
abort, not a surfaced error). -/
theorem c9_null_input_by_era (env : ResolveEnv) (fuel : Nat) :
    (findExportedSpecifier env none fuel
        = Except.error ResolverError.nullImportSpecifier
      ∧ handleTransformError ResolverError.nullImportSpecifier
        = some ResolverError.nullImportSpecifier)
    ∧ (toExportedSpecifierV1 true env none fuel
        = Except.error ResolverError.nullishImpSpecifier
      ∧ handleTransformError ResolverError.nullishImpSpecifier
        = some ResolverError.nullishImpSpecifier)
    ∧ (toExportedSpecifierV1 false env none fuel
        = Except.error ResolverError.abortSignal
      ∧ handleTransformError ResolverError.abortSignal = none) :=
  ⟨⟨rfl, rfl⟩, ⟨rfl, rfl⟩, ⟨rfl, rfl⟩⟩

/-! Embedding of `PathResolver.decompose` / `PathResolver.recompose`
(`src/pathResolver.js`).  `decompose` runs the anchored JavaScript regex
`/^(.*!)?(.*?)(\?.*)?$/` on the request.  Because `.` does not match a
newline and the regex has no other way to consume one, the regex fails on
any request containing a newline, in which case `decompose` falls back to
`{ loaders: null, path: request, query: null }`.  On newline-free input
the greedy optional group `(.*!)?` captures up to the last `!`, and the
lazy group plus the optional greedy `(\?.*)?` split the remainder at its
first `?`.  Requests are modelled as `List Char`. -/

/-- The decomposed request: `loaders` (ending in `!`), module `path`, and
`query` (starting with `?`); `none` models a non-participating group. -/
structure DecomposedRequest where
  loaders : Option (List Char)
  path : List Char
  query : Option (List Char)
deriving DecidableEq, Repr

/-- Split a string after its last `!`: the semantics of the greedy
anchored group `(.*!)?` on newline-free input.  Returns `none` when the
string has no `!` (the group does not participate). -/
def splitLastBang : List Char → Option (List Char × List Char)
  | [] => none
  | c :: cs =>
    match splitLastBang cs with
    | some (loaders, rest) => some (c :: loaders, rest)
    | none => if c = '!' then some ([c], cs) else none

/-- Split a string at its first `?`: the semantics of the lazy group
`(.*?)` followed by the optional `(\?.*)?` on newline-free input.  The
second component is `none` when the string has no `?`. -/
def splitFirstQuery : List Char → List Char × Option (List Char)
  | [] => ([], none)
  | c :: cs =>
    if c = '?' then ([], some (c :: cs))
    else
      let rest := splitFirstQuery cs
      (c :: rest.1, rest.2)

/-- `PathResolver.decompose`: run the request regex; when it fails (the
request contains a newline) return the whole request as the path with no
loaders and no query, otherwise return the three captured groups. -/
def decompose (request : List Char) : DecomposedRequest :=
  if request.contains '\n' then
    { loaders := none, path := request, query := none }
  else
    match splitLastBang request with
    | some (loaders, rest) =>
      let pq := splitFirstQuery rest
      { loaders := some loaders, path := pq.1, query := pq.2 }
    | none =>
      let pq := splitFirstQuery request
      { loaders := none, path := pq.1, query := pq.2 }

/-- `PathResolver.recompose`:
`[loaders, path, query].filter(Boolean).join('')` — drop the absent
(`null`) parts and the empty strings, then concatenate. -/
def recompose (decomposed : DecomposedRequest) : List Char :=
  ((([decomposed.loaders, some decomposed.path, decomposed.query].filterMap id).filter
    (fun s => !s.isEmpty)).join)

/-- Dropping empty lists before concatenating changes nothing. -/
theorem join_filter_nonempty (xs : List (List Char)) :
    (xs.filter (fun s => !s.isEmpty)).join = xs.join := by
  induction xs with
  | nil => rfl
  | cons x xs ih =>
    by_cases hx : x.isEmpty
    · have hnil : x = [] := List.isEmpty_iff.1 hx
      simp [List.filter_cons, hx, hnil, ih]
    · simp [List.filter_cons, hx, ih]

/-- `recompose` concatenates the three (possibly absent) parts. -/
theorem recompose_eq_append (lo : Option (List Char)) (p : List Char)
    (q : Option (List Char)) :
    recompose { loaders := lo, path := p, query := q }
      = lo.getD [] ++ p ++ q.getD [] := by
  unfold recompose
  rw [join_filter_nonempty]
  cases lo with
  | none => cases q with
    | none => simp
    | some ql => simp
  | some ll => cases q with
    | none => simp
    | some ql => simp

/-- `splitLastBang` is a decomposition of its input. -/
theorem splitLastBang_append (l : List Char) :
    ∀ loaders rest, splitLastBang l = some (loaders, rest) → loaders ++ rest = l := by
  induction l with
  | nil => intro loaders rest h; exact Option.noConfusion h
  | cons c cs ih =>
    intro loaders rest h
    unfold splitLastBang at h
    cases hcs : splitLastBang cs with
    | some pr =>
      rw [hcs] at h
      cases h
      simp [ih pr.1 pr.2 (by rw [hcs])]
    | none =>
      rw [hcs] at h
      by_cases hc : c = '!'
      · rw [if_pos hc] at h
        cases h
        rfl
      · rw [if_neg hc] at h
        exact Option.noConfusion h

/-- `splitFirstQuery` is a decomposition of its input. -/
theorem splitFirstQuery_append (l : List Char) :
    (splitFirstQuery l).1 ++ ((splitFirstQuery l).2).getD [] = l := by
  induction l with
  | nil => rfl
  | cons c cs ih =>
    unfold splitFirstQuery
    by_cases hc : c = '?'
    · simp [hc]
    · simp only [if_neg hc]
      simpa using ih

/-- C10: recomposing a decomposed request is the identity — for every
request string, `recompose(decompose(request))` returns the request
exactly, with the loader part and the query part placed back verbatim. -/
theorem c10_recompose_decompose (request : List Char) :
    recompose (decompose request) = request := by
  unfold decompose
  by_cases hn : request.contains '\n'
  · simp only [if_pos hn]
    rw [recompose_eq_append]
    simp
  · simp only [if_neg hn]
    cases hsb : splitLastBang request with
    | some pr =>
      have hl : pr.1 ++ pr.2 = request := splitLastBang_append request pr.1 pr.2 (by rw [hsb])
      simp only
      rw [recompose_eq_append]
      have hq := splitFirstQuery_append pr.2
      calc (some pr.1).getD [] ++ (splitFirstQuery pr.2).1
              ++ ((splitFirstQuery pr.2).2).getD []
            = pr.1 ++ ((splitFirstQuery pr.2).1 ++ ((splitFirstQuery pr.2).2).getD []) := by
              simp [List.append_assoc]
        _ = pr.1 ++ pr.2 := by rw [hq]
        _ = request := hl
    | none =>
      simp only
      rw [recompose_eq_append]
      have hq := splitFirstQuery_append request
      simpa using hq
